import Mathlib

/-!
Shallow embedding of `src/ibm.py`, an IBM HR attrition EDA script.

The script loads a CSV into a pandas DataFrame, drops candidate constant
columns (`EmployeeCount`, `StandardHours`, `Over18`) when they have exactly
one distinct value, recodes seven ordinal integer columns to label strings
via fixed dicts, and computes the overall attrition rate as
`value_counts['Yes'] / len(df) * 100`.

A DataFrame is modelled column-wise: a list of (column name, column values)
pairs; a cell is an integer, a string, or null (pandas NaN).  Operations
that raise a pandas `KeyError` (`df[col]` on a missing column,
`value_counts()['Yes']` when no cell equals `"Yes"`) are modelled as
`Option`-valued with `none` for the raising run.
-/

namespace IbmHr

/-- A cell of the table: pandas stores integers, strings, or NaN (null). -/
inductive Value where
  | int (n : Int)
  | str (s : String)
  | null
deriving DecidableEq, Repr

/-- A DataFrame, column-oriented: each entry is a column name with the
column's cells, in row order. -/
abbrev DataFrame := List (String × List Value)

/-- `df[c]` as a read: the cells of the first column named `c`, or `none`
(pandas raises `KeyError`) when no such column exists. -/
def getCol : DataFrame → String → Option (List Value)
  | [], _ => none
  | p :: rest, c => if p.1 = c then some p.2 else getCol rest c

/-- `col in df.columns`. -/
def hasCol (df : DataFrame) (c : String) : Bool :=
  (getCol df c).isSome

/-- `df.drop(columns=[c])`: removes every column labelled `c`. -/
def dropCol : DataFrame → String → DataFrame
  | [], _ => []
  | p :: rest, c => if p.1 = c then dropCol rest c else p :: dropCol rest c

/-- `series.nunique()`: the number of distinct non-null cells
(pandas `nunique` drops NaN by default). -/
def nunique (vs : List Value) : Nat :=
  ((vs.filter (fun v => v ≠ Value.null)).dedup).length

/-- `len(df)`: the number of rows (the length of the index, here read off
the first column; every column of a well-formed frame has this length). -/
def nrows : DataFrame → Nat
  | [] => 0
  | p :: _ => p.2.length

/-- The candidate constant columns of the cleaning step
(`columns_to_drop = ['EmployeeCount', 'StandardHours', 'Over18']`). -/
def columns_to_drop : List String :=
  ["EmployeeCount", "StandardHours", "Over18"]

/-- One iteration of the pruning loop:
`if col in df.columns and df[col].nunique() == 1: df.drop(columns=[col])`. -/
def pruneStep (df : DataFrame) (c : String) : DataFrame :=
  match getCol df c with
  | some vs => if nunique vs = 1 then dropCol df c else df
  | none => df

/-- The whole pruning loop `for col in columns_to_drop: ...`. -/
def prune (df : DataFrame) : DataFrame :=
  columns_to_drop.foldl pruneStep df

/-- `education_map = {1: 'Below College', ..., 5: 'Doctor'}`. -/
def education_map : List (Int × String) :=
  [(1, "Below College"), (2, "College"), (3, "Bachelor"), (4, "Master"), (5, "Doctor")]

/-- `environment_satisfaction_map = {1: 'Low', 2: 'Medium', 3: 'High', 4: 'Very High'}`. -/
def environment_satisfaction_map : List (Int × String) :=
  [(1, "Low"), (2, "Medium"), (3, "High"), (4, "Very High")]

/-- `job_involvement_map = {1: 'Low', 2: 'Medium', 3: 'High', 4: 'Very High'}`. -/
def job_involvement_map : List (Int × String) :=
  [(1, "Low"), (2, "Medium"), (3, "High"), (4, "Very High")]

/-- `job_satisfaction_map = {1: 'Low', 2: 'Medium', 3: 'High', 4: 'Very High'}`. -/
def job_satisfaction_map : List (Int × String) :=
  [(1, "Low"), (2, "Medium"), (3, "High"), (4, "Very High")]

/-- `performance_rating_map = {1: 'Low', 2: 'Good', 3: 'Excellent', 4: 'Outstanding'}`. -/
def performance_rating_map : List (Int × String) :=
  [(1, "Low"), (2, "Good"), (3, "Excellent"), (4, "Outstanding")]

/-- `relationship_satisfaction_map = {1: 'Low', 2: 'Medium', 3: 'High', 4: 'Very High'}`. -/
def relationship_satisfaction_map : List (Int × String) :=
  [(1, "Low"), (2, "Medium"), (3, "High"), (4, "Very High")]

/-- `work_life_balance_map = {1: 'Bad', 2: 'Good', 3: 'Better', 4: 'Best'}`. -/
def work_life_balance_map : List (Int × String) :=
  [(1, "Bad"), (2, "Good"), (3, "Better"), (4, "Best")]

/-- Python dict lookup on an integer-keyed mapping table. -/
def lookupCode : List (Int × String) → Int → Option String
  | [], _ => none
  | p :: rest, k => if p.1 = k then some p.2 else lookupCode rest k

/-- `series.map(m)` applied to one cell: a cell that is a key of the dict
becomes the mapped label; any other cell (an out-of-domain integer, a
string, or NaN) becomes NaN. -/
def mapValue (m : List (Int × String)) : Value → Value
  | Value.int k =>
    match lookupCode m k with
    | some s => Value.str s
    | none => Value.null
  | Value.str _ => Value.null
  | Value.null => Value.null

/-- Rewrite the cells of every column labelled `c` with `mapValue m`,
leaving other columns untouched. -/
def applyCol (df : DataFrame) (c : String) (m : List (Int × String)) : DataFrame :=
  df.map (fun p => if p.1 = c then (p.1, p.2.map (mapValue m)) else p)

/-- `df[c] = df[c].map(m)`: reading `df[c]` raises `KeyError` (modelled as
`none`) when the column is absent; otherwise the column is rewritten. -/
def mapColE (df : DataFrame) (c : String) (m : List (Int × String)) : Option DataFrame :=
  match getCol df c with
  | some _ => some (applyCol df c m)
  | none => none

/-- The seven ordinal columns with their mapping tables, in source order
(lines 77–83 of the script). -/
def ordinalMaps : List (String × List (Int × String)) :=
  [("Education", education_map),
   ("EnvironmentSatisfaction", environment_satisfaction_map),
   ("JobInvolvement", job_involvement_map),
   ("JobSatisfaction", job_satisfaction_map),
   ("PerformanceRating", performance_rating_map),
   ("RelationshipSatisfaction", relationship_satisfaction_map),
   ("WorkLifeBalance", work_life_balance_map)]

/-- Run the `df[c] = df[c].map(m)` assignments for a given column order;
the first missing column aborts the run (`KeyError`). -/
def recodeWith : List (String × List (Int × String)) → DataFrame → Option DataFrame
  | [], df => some df
  | p :: rest, df =>
    match mapColE df p.1 p.2 with
    | some df' => recodeWith rest df'
    | none => none

/-- The recoding pass of the script, in source order. -/
def recode (df : DataFrame) : Option DataFrame :=
  recodeWith ordinalMaps df

/-- The whole preparation pipeline: prune constant columns, then recode
the seven ordinal columns. -/
def prepare (df : DataFrame) : Option DataFrame :=
  recode (prune df)

/-- `attrition_counts = df['Attrition'].value_counts();
attrition_rate = (attrition_counts['Yes'] / len(df)) * 100`.
Reading `df['Attrition']` on a frame without that column raises `KeyError`;
so does `attrition_counts['Yes']` when no cell equals `"Yes"` (a
`value_counts` series has no index entry for a value of count zero).
Both raising runs are modelled as `none`. -/
def attrition_rate (df : DataFrame) : Option ℚ :=
  match getCol df "Attrition" with
  | some vs =>
    let c := vs.count (Value.str "Yes")
    if c = 0 then none
    else some (((c : ℚ) / (nrows df : ℚ)) * 100)
  | none => none

/-- The outcome of `pd.read_csv` on the hardcoded path: the file parses to
a frame, is missing (`FileNotFoundError`), or is present but malformed
(a parse error). -/
inductive LoadOutcome where
  | success (df : DataFrame)
  | missingFile
  | malformedFile

/-- The load step (lines 30–36): a successful parse yields the frame; a
`FileNotFoundError` is caught, a message is printed and `exit()` is called;
any parse error propagates uncaught.  Either failure terminates the script
with no DataFrame, modelled as `none`. -/
def load : LoadOutcome → Option DataFrame
  | LoadOutcome.success df => some df
  | LoadOutcome.missingFile => none
  | LoadOutcome.malformedFile => none

/-- The script run up to the attrition-rate printout: load, prune, recode,
then compute the rate on the cleaned frame.  Any raising step (load
failure, `KeyError` in recoding or in the rate) terminates the script with
no analysis output (`none`). -/
def runScript (o : LoadOutcome) : Option (DataFrame × ℚ) :=
  match load o with
  | none => none
  | some df =>
    match prepare df with
    | none => none
    | some cleaned =>
      match attrition_rate cleaned with
      | none => none
      | some r => some (cleaned, r)

/-- Rendering a rational with two decimal places, as the f-string
`f"{attrition_rate:.2f}"` does: the numerator of the value scaled to
hundredths, rounded half away from the nearest integer below. -/
def roundTo2 (q : ℚ) : ℚ :=
  ((⌊q * 100 + 1 / 2⌋ : Int) : ℚ) / 100

/-! ### Basic lemmas on column access and dropping -/

theorem getCol_dropCol_self (df : DataFrame) (c : String) :
    getCol (dropCol df c) c = none := by
  induction df with
  | nil => rfl
  | cons p rest ih =>
    by_cases hp : p.1 = c
    · simp [dropCol, hp, ih]
    · simp [dropCol, hp, getCol, ih]

theorem getCol_dropCol_ne (df : DataFrame) {c c' : String} (h : c' ≠ c) :
    getCol (dropCol df c) c' = getCol df c' := by
  induction df with
  | nil => rfl
  | cons p rest ih =>
    by_cases hp : p.1 = c
    · have hp' : p.1 ≠ c' := fun hh => h (hh ▸ hp)
      have hcc : ¬(c = c') := fun hh => h hh.symm
      simp [dropCol, hp, getCol, hp', hcc, ih]
    · simp [dropCol, hp, getCol, ih]

theorem dropCol_comm (df : DataFrame) (c c' : String) :
    dropCol (dropCol df c) c' = dropCol (dropCol df c') c := by
  induction df with
  | nil => rfl
  | cons p rest ih =>
    by_cases hp : p.1 = c <;> by_cases hp' : p.1 = c'
    · have hcc : c = c' := hp.symm.trans hp'
      subst hcc
      simp [dropCol, hp, ih]
    · have hcc : ¬(c = c') := fun hh => hp' (hp.trans hh)
      simp [dropCol, hp, hp', hcc, ih]
    · have hcc : ¬(c' = c) := fun hh => hp (hp'.trans hh)
      simp [dropCol, hp, hp', hcc, ih]
    · simp [dropCol, hp, hp', ih]

/-! ### Lemmas on one pruning iteration -/

theorem pruneStep_absent (df : DataFrame) {c : String}
    (h : getCol df c = none) : pruneStep df c = df := by
  simp [pruneStep, h]

theorem pruneStep_of_nunique_one (df : DataFrame) {c : String} {vs : List Value}
    (h : getCol df c = some vs) (h1 : nunique vs = 1) :
    pruneStep df c = dropCol df c := by
  simp [pruneStep, h, h1]

theorem pruneStep_of_nunique_ne (df : DataFrame) {c : String} {vs : List Value}
    (h : getCol df c = some vs) (h1 : nunique vs ≠ 1) :
    pruneStep df c = df := by
  simp [pruneStep, h, h1]

theorem getCol_pruneStep_ne (df : DataFrame) {c c' : String} (h : c' ≠ c) :
    getCol (pruneStep df c) c' = getCol df c' := by
  unfold pruneStep
  rcases hA : getCol df c with _ | vs
  · rfl
  · by_cases h1 : nunique vs = 1
    · simp [h1, getCol_dropCol_ne df h]
    · simp [h1]

theorem getCol_pruneStep_self (df : DataFrame) {c : String} {vs : List Value}
    (h : getCol df c = some vs) :
    getCol (pruneStep df c) c = if nunique vs = 1 then none else some vs := by
  by_cases h1 : nunique vs = 1
  · rw [pruneStep_of_nunique_one df h h1, if_pos h1, getCol_dropCol_self]
  · rw [pruneStep_of_nunique_ne df h h1, if_neg h1, h]

theorem pruneStep_idem (df : DataFrame) (c : String) :
    pruneStep (pruneStep df c) c = pruneStep df c := by
  rcases hA : getCol df c with _ | vs
  · rw [pruneStep_absent df hA, pruneStep_absent df hA]
  · by_cases h1 : nunique vs = 1
    · rw [pruneStep_of_nunique_one df hA h1]
      exact pruneStep_absent _ (getCol_dropCol_self df c)
    · rw [pruneStep_of_nunique_ne df hA h1, pruneStep_of_nunique_ne df hA h1]

theorem pruneStep_comm {c c' : String} (h : c ≠ c') (df : DataFrame) :
    pruneStep (pruneStep df c) c' = pruneStep (pruneStep df c') c := by
  rcases hA : getCol df c with _ | vs
  · rw [pruneStep_absent df hA]
    have hA' : getCol (pruneStep df c') c = none := by
      rw [getCol_pruneStep_ne df h, hA]
    rw [pruneStep_absent _ hA']
  · by_cases h1 : nunique vs = 1
    · rw [pruneStep_of_nunique_one df hA h1]
      rcases hB : getCol df c' with _ | ws
      · have hB' : getCol (dropCol df c) c' = none := by
          rw [getCol_dropCol_ne df h.symm, hB]
        rw [pruneStep_absent _ hB', pruneStep_absent df hB,
          pruneStep_of_nunique_one df hA h1]
      · have hB' : getCol (dropCol df c) c' = some ws := by
          rw [getCol_dropCol_ne df h.symm, hB]
        by_cases h2 : nunique ws = 1
        · have hA' : getCol (dropCol df c') c = some vs := by
            rw [getCol_dropCol_ne df h, hA]
          rw [pruneStep_of_nunique_one _ hB' h2, pruneStep_of_nunique_one df hB h2,
            pruneStep_of_nunique_one _ hA' h1, dropCol_comm]
        · rw [pruneStep_of_nunique_ne _ hB' h2, pruneStep_of_nunique_ne df hB h2,
            pruneStep_of_nunique_one df hA h1]
    · rw [pruneStep_of_nunique_ne df hA h1]
      have hA' : getCol (pruneStep df c') c = some vs := by
        rw [getCol_pruneStep_ne df h, hA]
      rw [pruneStep_of_nunique_ne _ hA' h1]

/-- `prune` unfolded to its three iterations, in loop order. -/
theorem prune_eq_steps (df : DataFrame) :
    prune df =
      pruneStep (pruneStep (pruneStep df "EmployeeCount") "StandardHours") "Over18" := rfl

theorem getCol_prune_candidate (df : DataFrame) {c : String} {vs : List Value}
    (hc : c ∈ columns_to_drop) (h : getCol df c = some vs) :
    getCol (prune df) c = if nunique vs = 1 then none else some vs := by
  rw [prune_eq_steps]
  fin_cases hc
  · rw [getCol_pruneStep_ne _ (by decide), getCol_pruneStep_ne _ (by decide),
      getCol_pruneStep_self df h]
  · rw [getCol_pruneStep_ne _ (by decide)]
    have h' : getCol (pruneStep df "EmployeeCount") "StandardHours" = some vs := by
      rw [getCol_pruneStep_ne _ (by decide), h]
    rw [getCol_pruneStep_self _ h']
  · have h' : getCol (pruneStep (pruneStep df "EmployeeCount") "StandardHours") "Over18"
        = some vs := by
      rw [getCol_pruneStep_ne _ (by decide), getCol_pruneStep_ne _ (by decide), h]
    rw [getCol_pruneStep_self _ h']

theorem getCol_prune_ne (df : DataFrame) {c : String}
    (hc : c ∉ columns_to_drop) :
    getCol (prune df) c = getCol df c := by
  have h1 : c ≠ "EmployeeCount" := fun hh => hc (by rw [hh]; decide)
  have h2 : c ≠ "StandardHours" := fun hh => hc (by rw [hh]; decide)
  have h3 : c ≠ "Over18" := fun hh => hc (by rw [hh]; decide)
  rw [prune_eq_steps, getCol_pruneStep_ne _ h3, getCol_pruneStep_ne _ h2,
    getCol_pruneStep_ne _ h1]

/-! ### Claim theorems about pruning -/

/-- C3: a column of the fixed candidate set `{EmployeeCount, StandardHours,
Over18}` is removed by the pruning step if and only if it has exactly one
distinct (non-null) value across all records; in particular a candidate
column with two distinct values, such as an `EmployeeCount` column with two
distinct values, is kept with its cells untouched. -/
theorem prune_candidate_iff (df : DataFrame) (c : String) (vs : List Value)
    (hc : c ∈ columns_to_drop) (h : getCol df c = some vs) :
    (hasCol (prune df) c = false ↔ nunique vs = 1) ∧
    (nunique vs = 2 → getCol (prune df) c = some vs) := by
  have hmain := getCol_prune_candidate df hc h
  constructor
  · by_cases h1 : nunique vs = 1
    · simp [hasCol, hmain, h1]
    · simp [hasCol, hmain, h1]
  · intro h2
    have h1 : nunique vs ≠ 1 := by omega
    rw [hmain, if_neg h1]

/-- Witness for C3 at a concrete frame: a three-record `EmployeeCount`
column holding the single distinct value 1 is removed by pruning. -/
theorem prune_candidate_iff_witness :
    hasCol (prune [("EmployeeCount", [Value.int 1, Value.int 1, Value.int 1]),
      ("Attrition", [Value.str "Yes", Value.str "No", Value.str "Yes"])])
      "EmployeeCount" = false :=
  (prune_candidate_iff
    [("EmployeeCount", [Value.int 1, Value.int 1, Value.int 1]),
     ("Attrition", [Value.str "Yes", Value.str "No", Value.str "Yes"])]
    "EmployeeCount" [Value.int 1, Value.int 1, Value.int 1]
    (by decide) rfl).1.mpr (by decide)

/-- C4: pruning constant columns is idempotent: applying the prune pass
twice yields the same frame as applying it once. -/
theorem prune_idempotent (df : DataFrame) : prune (prune df) = prune df := by
  have hES : ("EmployeeCount" : String) ≠ "StandardHours" := by decide
  have hEO : ("EmployeeCount" : String) ≠ "Over18" := by decide
  have hSO : ("StandardHours" : String) ≠ "Over18" := by decide
  show pruneStep (pruneStep (pruneStep (prune df) "EmployeeCount") "StandardHours") "Over18"
      = prune df
  rw [prune_eq_steps df]
  rw [pruneStep_comm hEO.symm, pruneStep_comm hES.symm, pruneStep_idem,
    pruneStep_comm hSO.symm, pruneStep_idem, pruneStep_idem]

/-- C9: pruning never fails on a frame lacking candidate columns: an absent
candidate makes its loop iteration a no-op, every non-candidate column is
left exactly as it was, and a frame lacking all three candidates passes
through pruning unchanged. -/
theorem prune_missing_candidate_safe (df : DataFrame) :
    (∀ c, c ∈ columns_to_drop → getCol df c = none → pruneStep df c = df) ∧
    (∀ c, c ∉ columns_to_drop → getCol (prune df) c = getCol df c) ∧
    ((∀ c, c ∈ columns_to_drop → getCol df c = none) → prune df = df) := by
  refine ⟨fun c _ h => pruneStep_absent df h, fun c hc => getCol_prune_ne df hc, fun h => ?_⟩
  rw [prune_eq_steps,
    pruneStep_absent df (h "EmployeeCount" (by decide)),
    pruneStep_absent df (h "StandardHours" (by decide)),
    pruneStep_absent df (h "Over18" (by decide))]

/-- Witness for C9 at a concrete frame with none of the candidate columns:
pruning leaves it unchanged. -/
theorem prune_missing_candidate_safe_witness :
    prune [("Attrition", [Value.str "Yes"]), ("Age", [Value.int 30])]
      = [("Attrition", [Value.str "Yes"]), ("Age", [Value.int 30])] :=
  (prune_missing_candidate_safe _).2.2 (fun c hc => by fin_cases hc <;> rfl)

/-! ### Lemmas on the recoding pass -/

theorem getCol_applyCol_self (df : DataFrame) (c : String) (m : List (Int × String)) :
    getCol (applyCol df c m) c = (getCol df c).map (List.map (mapValue m)) := by
  induction df with
  | nil => rfl
  | cons p rest ih =>
    by_cases hp : p.1 = c
    · simp [applyCol, getCol, hp]
    · simp only [applyCol, List.map_cons, if_neg hp]
      simpa [getCol, hp] using ih

theorem getCol_applyCol_ne (df : DataFrame) {c c' : String} (m : List (Int × String))
    (h : c' ≠ c) :
    getCol (applyCol df c m) c' = getCol df c' := by
  induction df with
  | nil => rfl
  | cons p rest ih =>
    by_cases hp : p.1 = c
    · have hp' : p.1 ≠ c' := fun hh => h (hh ▸ hp)
      simp only [applyCol, List.map_cons, if_pos hp]
      simp only [getCol, if_neg hp']
      exact ih
    · simp only [applyCol, List.map_cons, if_neg hp]
      by_cases hq : p.1 = c'
      · simp [getCol, hq]
      · simp only [getCol, if_neg hq]
        exact ih

theorem isSome_getCol_applyCol (df : DataFrame) (c c'' : String) (m : List (Int × String)) :
    (getCol (applyCol df c m) c'').isSome = (getCol df c'').isSome := by
  by_cases h : c'' = c
  · subst h
    rw [getCol_applyCol_self]
    cases getCol df c'' <;> rfl
  · rw [getCol_applyCol_ne df m h]

theorem applyCol_comm (df : DataFrame) {c c' : String}
    (m m' : List (Int × String)) (h : c ≠ c') :
    applyCol (applyCol df c m) c' m' = applyCol (applyCol df c' m') c m := by
  unfold applyCol
  rw [List.map_map, List.map_map]
  congr 1
  funext p
  by_cases hp : p.1 = c
  · have hp' : p.1 ≠ c' := fun hh => h (hp.symm.trans hh)
    simp [Function.comp, hp, hp', h]
  · by_cases hp' : p.1 = c'
    · simp [Function.comp, hp, hp', Ne.symm h]
    · simp [Function.comp, hp, hp']

theorem mapColE_eq_some (df : DataFrame) {c : String} {m : List (Int × String)}
    {vs : List Value} (h : getCol df c = some vs) :
    mapColE df c m = some (applyCol df c m) := by
  simp [mapColE, h]

theorem mapColE_eq_none (df : DataFrame) {c : String} {m : List (Int × String)}
    (h : getCol df c = none) : mapColE df c m = none := by
  simp [mapColE, h]

theorem mapColE_swap (df : DataFrame) {c c' : String}
    (m m' : List (Int × String)) (h : c ≠ c') :
    (mapColE df c m).bind (fun d => mapColE d c' m')
      = (mapColE df c' m').bind (fun d => mapColE d c m) := by
  rcases hA : getCol df c with _ | vs
  · rw [mapColE_eq_none df hA]
    rcases hB : getCol df c' with _ | ws
    · rw [mapColE_eq_none df hB]
      simp
    · rw [mapColE_eq_some df hB, Option.none_bind, Option.some_bind,
        mapColE_eq_none _ (by rw [getCol_applyCol_ne df m' h, hA])]
  · rw [mapColE_eq_some df hA, Option.some_bind]
    rcases hB : getCol df c' with _ | ws
    · rw [mapColE_eq_none df hB, Option.none_bind,
        mapColE_eq_none _ (by rw [getCol_applyCol_ne df m (Ne.symm h), hB])]
    · rw [mapColE_eq_some df hB, Option.some_bind,
        mapColE_eq_some _ (by rw [getCol_applyCol_ne df m (Ne.symm h), hB] :
          getCol (applyCol df c m) c' = some ws),
        mapColE_eq_some _ (by rw [getCol_applyCol_ne df m' h, hA] :
          getCol (applyCol df c' m') c = some vs),
        applyCol_comm df m m' h]

theorem recodeWith_cons (p : String × List (Int × String))
    (rest : List (String × List (Int × String))) (df : DataFrame) :
    recodeWith (p :: rest) df = (mapColE df p.1 p.2).bind (fun d => recodeWith rest d) := by
  cases h : mapColE df p.1 p.2 <;> simp [recodeWith, h]

theorem getCol_recodeWith_not_mem (l : List (String × List (Int × String))) :
    ∀ df df' c, recodeWith l df = some df' → c ∉ l.map Prod.fst →
      getCol df' c = getCol df c := by
  induction l with
  | nil =>
    intro df df' c h _
    cases h
    rfl
  | cons p rest ih =>
    intro df df' c h hc
    rcases hA : mapColE df p.1 p.2 with _ | d
    · rw [recodeWith_cons, hA, Option.none_bind] at h
      cases h
    · rw [recodeWith_cons, hA, Option.some_bind] at h
      have hcp : c ≠ p.1 := fun hh => hc (by rw [List.map_cons, hh]; exact List.mem_cons_self _ _)
      have hcr : c ∉ rest.map Prod.fst := fun hh => hc (by rw [List.map_cons]; exact List.mem_cons_of_mem _ hh)
      rcases hB : getCol df p.1 with _ | vs
      · rw [mapColE_eq_none df hB] at hA
        cases hA
      · rw [mapColE_eq_some df hB] at hA
        cases hA
        rw [ih _ _ _ h hcr, getCol_applyCol_ne df p.2 hcp]

theorem getCol_recodeWith_mem (l : List (String × List (Int × String))) :
    ∀ df df' c m vs, (l.map Prod.fst).Nodup → recodeWith l df = some df' →
      (c, m) ∈ l → getCol df c = some vs →
      getCol df' c = some (vs.map (mapValue m)) := by
  induction l with
  | nil =>
    intro _ _ _ _ _ _ _ hmem
    cases hmem
  | cons p rest ih =>
    intro df df' c m vs hnd h hmem hv
    rcases hA : mapColE df p.1 p.2 with _ | d
    · rw [recodeWith_cons, hA, Option.none_bind] at h
      cases h
    · rw [recodeWith_cons, hA, Option.some_bind] at h
      rcases hB : getCol df p.1 with _ | ws
      · rw [mapColE_eq_none df hB] at hA
        cases hA
      · rw [mapColE_eq_some df hB] at hA
        cases hA
        rw [List.map_cons, List.nodup_cons] at hnd
        rcases List.mem_cons.mp hmem with heq | hrest
        · cases heq
          have hcr : c ∉ rest.map Prod.fst := hnd.1
          rw [getCol_recodeWith_not_mem rest _ _ _ h hcr,
            getCol_applyCol_self, hv]
          rfl
        · have hcp : c ≠ p.1 := by
            intro hh
            exact hnd.1 (hh ▸ (List.mem_map.mpr ⟨(c, m), hrest, rfl⟩))
          exact ih _ _ _ _ _ hnd.2 h hrest
            (by rw [getCol_applyCol_ne df p.2 hcp]; exact hv)

theorem isSome_getCol_recodeWith (l : List (String × List (Int × String))) :
    ∀ df df' c, recodeWith l df = some df' →
      (getCol df' c).isSome = (getCol df c).isSome := by
  induction l with
  | nil =>
    intro df df' c h
    cases h
    rfl
  | cons p rest ih =>
    intro df df' c h
    rcases hA : mapColE df p.1 p.2 with _ | d
    · rw [recodeWith_cons, hA, Option.none_bind] at h
      cases h
    · rw [recodeWith_cons, hA, Option.some_bind] at h
      rcases hB : getCol df p.1 with _ | ws
      · rw [mapColE_eq_none df hB] at hA
        cases hA
      · rw [mapColE_eq_some df hB] at hA
        cases hA
        rw [ih _ _ _ h, isSome_getCol_applyCol]

theorem recodeWith_isSome (l : List (String × List (Int × String))) :
    ∀ df, (∀ p ∈ l, (getCol df p.1).isSome) → (recodeWith l df).isSome := by
  induction l with
  | nil => intro df _; rfl
  | cons p rest ih =>
    intro df h
    rcases hB : getCol df p.1 with _ | ws
    · have := h p (List.mem_cons_self _ _)
      rw [hB] at this
      cases this
    · rw [recodeWith_cons, mapColE_eq_some df hB, Option.some_bind]
      exact ih _ (fun q hq => by
        rw [isSome_getCol_applyCol]
        exact h q (List.mem_cons_of_mem _ hq))

theorem recodeWith_perm :
    ∀ {l l' : List (String × List (Int × String))}, l.Perm l' →
      (l.map Prod.fst).Nodup → ∀ df, recodeWith l df = recodeWith l' df := by
  intro l l' hp
  induction hp with
  | nil => intro _ _; rfl
  | cons x hperm ih =>
    intro hnd df
    rw [List.map_cons, List.nodup_cons] at hnd
    rw [recodeWith_cons, recodeWith_cons]
    congr 1
    funext d
    exact ih hnd.2 d
  | swap x y l =>
    intro hnd df
    have hxy : y.1 ≠ x.1 := by
      rw [List.map_cons, List.nodup_cons] at hnd
      exact fun hh => hnd.1 (by rw [List.map_cons, hh]; exact List.mem_cons_self _ _)
    simp only [recodeWith_cons]
    rw [← Option.bind_assoc, ← Option.bind_assoc, mapColE_swap df y.2 x.2 hxy]
  | trans h1 _ ih1 ih2 =>
    intro hnd df
    have hnd' := ((h1.map Prod.fst).nodup_iff).mp hnd
    rw [ih1 hnd df, ih2 hnd' df]

theorem mapValue_mapValue (m m' : List (Int × String)) (v : Value) :
    mapValue m (mapValue m' v) = Value.null := by
  cases v with
  | int k => cases h : lookupCode m' k <;> simp [mapValue, h]
  | str s => rfl
  | null => rfl

theorem map_mapValue_mapValue (m m' : List (Int × String)) (l : List Value) :
    (l.map (mapValue m')).map (mapValue m) = List.replicate l.length Value.null := by
  induction l with
  | nil => rfl
  | cons v t ih => simp [List.replicate_succ, ih, mapValue_mapValue]

theorem recodeWith_some_present (l : List (String × List (Int × String))) :
    ∀ df df', recodeWith l df = some df' → ∀ p ∈ l, (getCol df p.1).isSome := by
  induction l with
  | nil =>
    intro _ _ _ p hp
    cases hp
  | cons q rest ih =>
    intro df df' h p hp
    rcases hB : getCol df q.1 with _ | ws
    · rw [recodeWith_cons, mapColE_eq_none df hB, Option.none_bind] at h
      cases h
    · rw [recodeWith_cons, mapColE_eq_some df hB, Option.some_bind] at h
      rcases List.mem_cons.mp hp with heq | hrest
      · rw [heq, hB]
        rfl
      · have := ih _ _ h p hrest
        rwa [isSome_getCol_applyCol] at this

/-! ### One-row frames used by the witnesses -/

/-- A one-row frame holding all seven ordinal columns with valid codes. -/
def wFrame : DataFrame :=
  [("Attrition", [Value.str "Yes"]),
   ("Education", [Value.int 3]),
   ("EnvironmentSatisfaction", [Value.int 2]),
   ("JobInvolvement", [Value.int 3]),
   ("JobSatisfaction", [Value.int 4]),
   ("PerformanceRating", [Value.int 1]),
   ("RelationshipSatisfaction", [Value.int 2]),
   ("WorkLifeBalance", [Value.int 4])]

/-- The result of recoding `wFrame` once. -/
def wRecoded : DataFrame :=
  [("Attrition", [Value.str "Yes"]),
   ("Education", [Value.str "Bachelor"]),
   ("EnvironmentSatisfaction", [Value.str "Medium"]),
   ("JobInvolvement", [Value.str "High"]),
   ("JobSatisfaction", [Value.str "Very High"]),
   ("PerformanceRating", [Value.str "Low"]),
   ("RelationshipSatisfaction", [Value.str "Medium"]),
   ("WorkLifeBalance", [Value.str "Best"])]

/-! ### Claim theorems about recoding -/

/-- C2: for each of the seven ordinal columns and every valid code of its
mapping table, recoding replaces the code with exactly the table's label,
independently per record and per field (a recoded column is the elementwise
`mapValue` image of the old column), and the order in which the seven
columns are recoded does not affect the result (any permutation of the
recoding assignments computes the same function). -/
theorem recode_ordinal_spec :
    (∀ df df' c m vs, recode df = some df' → (c, m) ∈ ordinalMaps →
        getCol df c = some vs → getCol df' c = some (vs.map (mapValue m))) ∧
    (∀ c m k lbl, (c, m) ∈ ordinalMaps → lookupCode m k = some lbl →
        mapValue m (Value.int k) = Value.str lbl) ∧
    (∀ l, ordinalMaps.Perm l → ∀ df, recode df = recodeWith l df) := by
  refine ⟨?_, ?_, ?_⟩
  · intro df df' c m vs h hmem hv
    exact getCol_recodeWith_mem ordinalMaps df df' c m vs (by decide) h hmem hv
  · intro c m k lbl _ hl
    simp [mapValue, hl]
  · intro l hperm df
    exact recodeWith_perm hperm (by decide) df

/-- Witness for C2 at a concrete one-row frame: the `Education` code 3 is
recoded to `"Bachelor"`, the table sends 5 to `"Doctor"`, and recoding the
seven columns in reverse order computes the same result. -/
theorem recode_ordinal_spec_witness :
    getCol wRecoded "Education" = some [Value.str "Bachelor"] ∧
    mapValue education_map (Value.int 5) = Value.str "Doctor" ∧
    recode wFrame = recodeWith ordinalMaps.reverse wFrame :=
  ⟨recode_ordinal_spec.1 wFrame wRecoded "Education" education_map [Value.int 3]
      (by rfl) (by decide) (by rfl),
   recode_ordinal_spec.2.1 "Education" education_map 5 "Doctor" (by decide) (by rfl),
   recode_ordinal_spec.2.2 ordinalMaps.reverse (List.reverse_perm ordinalMaps).symm wFrame⟩

/-- C8: recoding an ordinal cell whose integer code lies outside its
column's mapping table replaces it with null (pandas NaN): `series.map`
on a dict sends non-key values to NaN, raising no error and passing
nothing through. -/
theorem recode_out_of_domain (c : String) (m : List (Int × String)) (k : Int)
    (i : Nat) (df df' : DataFrame) (vs : List Value)
    (_hmem : (c, m) ∈ ordinalMaps) (hk : lookupCode m k = none)
    (h : mapColE df c m = some df') (hv : getCol df c = some vs)
    (hi : vs.get? i = some (Value.int k)) :
    mapValue m (Value.int k) = Value.null ∧
    getCol df' c = some (vs.map (mapValue m)) ∧
    (vs.map (mapValue m)).get? i = some Value.null := by
  have h1 : mapValue m (Value.int k) = Value.null := by simp [mapValue, hk]
  refine ⟨h1, ?_, ?_⟩
  · rw [mapColE_eq_some df hv] at h
    cases h
    rw [getCol_applyCol_self, hv]
    rfl
  · rw [List.get?_map, hi]
    simp [h1]

/-- Witness for C8: the out-of-range `WorkLifeBalance` code 7 becomes null. -/
theorem recode_out_of_domain_witness :
    mapValue work_life_balance_map (Value.int 7) = Value.null ∧
    getCol (applyCol [("WorkLifeBalance", [Value.int 7])] "WorkLifeBalance"
        work_life_balance_map) "WorkLifeBalance" = some [Value.null] ∧
    ([Value.int 7].map (mapValue work_life_balance_map)).get? 0 = some Value.null :=
  recode_out_of_domain "WorkLifeBalance" work_life_balance_map 7 0
    [("WorkLifeBalance", [Value.int 7])]
    (applyCol [("WorkLifeBalance", [Value.int 7])] "WorkLifeBalance" work_life_balance_map)
    [Value.int 7] (by decide) (by rfl) (by rfl) (by rfl) (by rfl)

/-- C10: recoding is not idempotent: if the recode pass succeeds once, it
succeeds again on its own output, but the second pass turns every cell of
the seven ordinal columns into null, because the first pass left only
label strings and nulls, none of which is a key of the integer-keyed
mapping tables. -/
theorem recode_not_idempotent (df df₁ : DataFrame) (h : recode df = some df₁) :
    ∃ df₂, recode df₁ = some df₂ ∧
      ∀ c m vs, (c, m) ∈ ordinalMaps → getCol df₁ c = some vs →
        getCol df₂ c = some (List.replicate vs.length Value.null) := by
  have hpresent : ∀ p ∈ ordinalMaps, (getCol df₁ p.1).isSome := by
    intro p hp
    rw [isSome_getCol_recodeWith ordinalMaps df df₁ p.1 h]
    exact recodeWith_some_present ordinalMaps df df₁ h p hp
  have hsome : (recode df₁).isSome := recodeWith_isSome ordinalMaps df₁ hpresent
  rcases h2 : recode df₁ with _ | df₂
  · rw [h2] at hsome
    cases hsome
  · refine ⟨df₂, rfl, ?_⟩
    intro c m vs hmem hv
    have hnd : (ordinalMaps.map Prod.fst).Nodup := by decide
    rcases hv0 : getCol df c with _ | ws
    · have := recodeWith_some_present ordinalMaps df df₁ h (c, m) hmem
      rw [hv0] at this
      cases this
    · have hvs : getCol df₁ c = some (ws.map (mapValue m)) :=
        getCol_recodeWith_mem ordinalMaps df df₁ c m ws hnd h hmem hv0
      have hveq : vs = ws.map (mapValue m) := by
        rw [hv] at hvs
        exact Option.some_injective _ hvs
      have h3 : getCol df₂ c = some ((ws.map (mapValue m)).map (mapValue m)) :=
        getCol_recodeWith_mem ordinalMaps df₁ df₂ c m (ws.map (mapValue m)) hnd h2 hmem hvs
      rw [h3, map_mapValue_mapValue, hveq, List.length_map]

/-- Witness for C10: recoding the already-recoded one-row frame nulls the
`Education` column. -/
theorem recode_not_idempotent_witness :
    getCol ((recode wRecoded).getD []) "Education" = some [Value.null] := by
  obtain ⟨df₂, h2, h3⟩ := recode_not_idempotent wFrame wRecoded (by rfl)
  have h4 := h3 "Education" education_map [Value.str "Bachelor"] (by decide) (by rfl)
  rw [h2]
  simpa using h4

/-! ### Claim theorems about the attrition rate and the script run -/

/-- C1 counterexample: on a frame whose only `Attrition` value is `"No"`,
the script's rate expression `value_counts['Yes'] / len(df) * 100` raises a
`KeyError` (the `value_counts` series has no `'Yes'` entry), so no rate —
in particular not the rate 0 the claim requires — is produced. -/
theorem attrition_rate_no_yes_counterexample :
    attrition_rate [("Attrition", [Value.str "No"])] = none ∧
    attrition_rate [("Attrition", [Value.str "No"])] ≠ some 0 :=
  ⟨rfl, fun hc => Option.noConfusion hc⟩

/-- C1 (amended): whenever the dataset has at least one `"Yes"` record, the
attrition rate equals the number of `"Yes"` records divided by the record
count times 100, and it equals 100 when every record is `"Yes"` (and the
dataset is nonempty); but when no record is `"Yes"` the code raises a
`KeyError` and produces no rate (rather than the claim's 0). -/
theorem attrition_rate_spec (df : DataFrame) (vs : List Value)
    (hv : getCol df "Attrition" = some vs)
    (hrows : nrows df = vs.length) :
    (vs.count (Value.str "Yes") ≠ 0 →
      attrition_rate df
        = some ((vs.count (Value.str "Yes") : ℚ) / (vs.length : ℚ) * 100)) ∧
    ((∀ v ∈ vs, v = Value.str "Yes") → vs ≠ [] → attrition_rate df = some 100) ∧
    (vs.count (Value.str "Yes") = 0 → attrition_rate df = none) := by
  refine ⟨?_, ?_, ?_⟩
  · intro hc
    simp [attrition_rate, hv, hc, hrows]
  · intro hall hne
    have hcount : vs.count (Value.str "Yes") = vs.length :=
      List.count_eq_length.mpr (fun v hv' => (hall v hv').symm)
    have hlen : vs.length ≠ 0 := fun hh => hne (List.length_eq_zero.mp hh)
    have hc : vs.count (Value.str "Yes") ≠ 0 := by rw [hcount]; exact hlen
    have hq : attrition_rate df
        = some ((vs.length : ℚ) / (vs.length : ℚ) * 100) := by
      simp [attrition_rate, hv, hc, hrows, hcount, hne]
    rw [hq, div_self (Nat.cast_ne_zero.mpr hlen), one_mul]
  · intro hc
    simp [attrition_rate, hv, hc]

/-- Witness for C1 (amended): a one-record all-`"Yes"` frame has rate 100. -/
theorem attrition_rate_spec_witness :
    attrition_rate [("Attrition", [Value.str "Yes"])] = some 100 :=
  (attrition_rate_spec [("Attrition", [Value.str "Yes"])] [Value.str "Yes"]
    rfl rfl).2.1 (by decide) (by decide)

/-- C5: a missing input file (caught `FileNotFoundError`: message and
`exit()`) and an unparseable one (uncaught parse error) both terminate the
script with no DataFrame and no analysis output, while a successful parse
yields the frame; unavailability of the data is the one failure mode of
the load step. -/
theorem load_failure_no_output :
    load LoadOutcome.missingFile = none ∧
    load LoadOutcome.malformedFile = none ∧
    runScript LoadOutcome.missingFile = none ∧
    runScript LoadOutcome.malformedFile = none ∧
    (∀ df, load (LoadOutcome.success df) = some df) :=
  ⟨rfl, rfl, rfl, rfl, fun _ => rfl⟩

/-- C6: the preparation pipeline is deterministic: runs on equal load
outcomes produce identical results, and the prune-then-recode transform is
a fixed function of the input frame alone (the mapping tables are
constants of the program). -/
theorem pipeline_deterministic (o₁ o₂ : LoadOutcome) (h : o₁ = o₂) :
    runScript o₁ = runScript o₂ ∧
    ∀ df₁ df₂ : DataFrame, df₁ = df₂ → prepare df₁ = prepare df₂ :=
  ⟨h ▸ rfl, fun _ _ hd => hd ▸ rfl⟩

/-- Witness for C6 at a concrete outcome. -/
theorem pipeline_deterministic_witness :
    runScript (LoadOutcome.success wFrame) = runScript (LoadOutcome.success wFrame) :=
  (pipeline_deterministic (LoadOutcome.success wFrame) (LoadOutcome.success wFrame) rfl).1

/-- The literal 3-row input of the spec's test property: columns
`EmployeeCount = [1,1,1]`, `Attrition = [Yes,No,Yes]`, `Education = [3,4,1]`. -/
def litFrame : DataFrame :=
  [("EmployeeCount", [Value.int 1, Value.int 1, Value.int 1]),
   ("Attrition", [Value.str "Yes", Value.str "No", Value.str "Yes"]),
   ("Education", [Value.int 3, Value.int 4, Value.int 1])]

/-- C7 counterexample: on the literal 3-row input the pipeline produces no
cleaned frame and the script run produces no attrition rate at all (in
particular not 66.67): after pruning, the recode pass raises `KeyError` on
the absent `EnvironmentSatisfaction` column and the script dies there. -/
theorem literal_input_counterexample :
    prepare litFrame = none ∧ runScript (LoadOutcome.success litFrame) = none :=
  ⟨rfl, rfl⟩

/-- C7 (amended): on the literal 3-row input, the steps the input reaches
behave as the claim expects — pruning removes `EmployeeCount`, mapping the
`Education` column recodes `[3,4,1]` to `[Bachelor, Master, Below College]`,
and the rate expression applied to the pruned table yields `200/3`, which
renders as `66.67` at two decimals — but the full recode pass, hence the
whole pipeline, fails on this input because the other six ordinal columns
are absent. -/
theorem literal_input_amended :
    prune litFrame
      = [("Attrition", [Value.str "Yes", Value.str "No", Value.str "Yes"]),
         ("Education", [Value.int 3, Value.int 4, Value.int 1])] ∧
    (mapColE (prune litFrame) "Education" education_map).bind
        (fun d => getCol d "Education")
      = some [Value.str "Bachelor", Value.str "Master", Value.str "Below College"] ∧
    attrition_rate (prune litFrame) = some (200 / 3) ∧
    roundTo2 (200 / 3) = 6667 / 100 ∧
    recode (prune litFrame) = none := by
  refine ⟨rfl, rfl, ?_, ?_, rfl⟩
  · have h1 : attrition_rate (prune litFrame) = some ((2 : ℚ) / (3 : ℚ) * 100) := by rfl
    rw [h1]
    norm_num
  · norm_num [roundTo2]

end IbmHr
